import Mathlib

/-! Verification development for the OOI data-explorations M2M access module
(`instruments/python/common.py`): shallow embeddings of the
request / poll / collect / normalize pipeline, followed by proofs of the
testable properties stated for it.  Definitions come first, then helper
lemmas, then the claim theorems C1..C10 with their witnesses. -/

set_option maxRecDepth 100000

namespace OOI

/-! Definitions: the completion-polling loop of `m2m_request`
(common.py, lines 252-268).

The Python loop is
```
for i in range(200):
    r = requests.get(check_complete)
    bar.update(1)
    if r.status_code == requests.codes.ok:
        ...
        print('\nrequest completed in %f minutes.' % elapsed)
        break
    else:
        time.sleep(3)
        elapsed = (i * 3) / 60
return data
```
The local variable `elapsed` is assigned only in the `else` branch, so the
`print` on the success path raises `NameError` when the very first check
succeeds.  We model the loop as a function of the status endpoint, seen as a
predicate `status : ℕ → Bool` (`status i = true` iff the (i+1)-st GET of
`status.txt` answers HTTP 200). -/

/-- Outcome of the polling loop followed by `return data`.
`ret checks sleepSeconds completed`: the function returns the export job
descriptor `data` after `checks` status checks and `sleepSeconds` seconds
spent in `time.sleep(3)` calls; `completed = true` iff the loop ended via the
success `break` (with the completion report printed), `false` iff the
`for` loop exhausted its 200 iterations and fell through.
`nameError checks sleepSeconds`: the success branch was reached while the
Python local `elapsed` was still unassigned, so the completion `print`
raises `NameError` instead of returning. -/
inductive PollOutcome where
  | ret (checks sleepSeconds : ℕ) (completed : Bool)
  | nameError (checks sleepSeconds : ℕ)
deriving DecidableEq, Repr

/-- The polling loop returns the descriptor (rather than raising). -/
def PollOutcome.returnsData : PollOutcome → Bool
  | .ret _ _ _ => true
  | .nameError _ _ => false

/-- One pass of the `for i in range(200)` loop of `m2m_request`, from check
index `i` with `fuel` iterations left; `elapsedSet` records whether the Python
local `elapsed` has been assigned yet, `sleepSeconds` the accumulated
`time.sleep(3)` time. -/
def pollLoop (status : ℕ → Bool) : ℕ → ℕ → Bool → ℕ → PollOutcome
  | i, 0, _, sleepSeconds => .ret i sleepSeconds false
  | i, fuel + 1, elapsedSet, sleepSeconds =>
    if status i then
      if elapsedSet then .ret (i + 1) sleepSeconds true
      else .nameError (i + 1) sleepSeconds
    else pollLoop status (i + 1) fuel true (sleepSeconds + 3)

/-- The completion-polling phase of `m2m_request` (lines 254-268): 200
bounded checks starting from check 0, `elapsed` initially unassigned, then
`return data`. -/
def m2m_request_poll (status : ℕ → Bool) : PollOutcome :=
  pollLoop status 0 200 false 0

/-! Definitions: query-string construction of `m2m_request` (lines 232-243).

```
if start:
    begin_date = '?beginDT=' + start
else:
    begin_date = '?beginDT=0'
if stop:
    end_date = '&endDT=' + stop
else:
    end_date = ''
options = begin_date + end_date + '&format=application/netcdf'
```
`start` and `stop` default to `None`.  `if start:` is Python truthiness:
both `None` and the empty string take the default branch; we model the
optional arguments as `Option String` and carry the emptiness test. -/

/-- The `options` string appended to the sensor URL by `m2m_request`. -/
def m2m_request_options (start stop : Option String) : String :=
  (match start with
    | some s => if s = "" then "?beginDT=0" else "?beginDT=" ++ s
    | none => "?beginDT=0")
  ++ (match stop with
    | some t => if t = "" then "" else "&endDT=" ++ t
    | none => "")
  ++ "&format=application/netcdf"

/-! Definitions: file collection and merge, `m2m_collect` (lines 271-288)
and `list_files` (lines 291-302). -/

/-- One observation row of a per-file dataset: its time coordinate (an
integer datetime64 nanosecond value) and its science payload, abstracted to
one integer so that rows from different files stay distinguishable. -/
structure Obs where
  time : ℤ
  value : ℤ
deriving DecidableEq, Repr

/-- Row comparison by the time coordinate, the key of `sortby('time')`. -/
def obsLE (a b : Obs) : Prop := a.time ≤ b.time

instance : DecidableRel obsLE := fun a b => inferInstanceAs (Decidable (a.time ≤ b.time))

instance : IsTotal Obs obsLE := ⟨fun a b => Int.le_total a.time b.time⟩

instance : IsTrans Obs obsLE := ⟨fun _ _ _ h1 h2 => le_trans h1 h2⟩

/-- The merge stage of `m2m_collect` (lines 284-288): the per-file datasets
(already downloaded and normalized, modelled as row lists) are concatenated
along the time dimension with `xr.concat(frames, 'time')` and the result is
re-sorted with `sortby('time')`.  `xr.concat` raises on an empty frame list,
modelled as `none`.  The numpy argsort behind `sortby` is modelled by
insertion sort on the time key; every property proved below depends only on
the result being a permutation sorted by time. -/
def m2m_collect (frames : List (List Obs)) : Option (List Obs) :=
  if frames = [] then none
  else some (List.insertionSort obsLE frames.flatten)

/-- An anchor element of the generated THREDDS catalog page: its link text
and its href attribute. -/
structure Anchor where
  text : String
  href : String
deriving DecidableEq, Repr

/-- `list_files` (lines 291-302): `soup.find_all('a', text=pattern)` keeps
the anchor elements of the catalog page whose link text the compiled regex
matches, in page order, and `node.get('href')` maps each to its href
attribute.  The fetched page is modelled by its list of anchor elements and
the compiled pattern by its match predicate. -/
def list_files (page : List Anchor) (search : String → Bool) : List String :=
  (page.filter (fun a => search a.text)).map Anchor.href

/-- Match predicate of the default empty regex tag `''`: a regex search for
the empty pattern succeeds on every string. -/
def emptyTagSearch : String → Bool := fun _ => true

/-- Match predicate of the regex tag `\.nc$`: a regex search for it succeeds
exactly on the strings that end in ".nc". -/
def ncTagSearch (s : String) : Bool := decide (".nc".data <:+ s.data)

/-! Definitions: per-file normalization, `process_file` (lines 305-341). -/

/-- Set (overwrite) an attribute in a key/value attribute table. -/
def attrSet (attrs : List (String × String)) (k v : String) : List (String × String) :=
  attrs.filter (fun kv => decide (kv.1 ≠ k)) ++ [(k, v)]

/-- Delete an attribute from a key/value attribute table if present. -/
def attrDel (attrs : List (String × String)) (k : String) : List (String × String) :=
  attrs.filter (fun kv => decide (kv.1 ≠ k))

/-- The slice of an xarray Dataset that `process_file` manipulates: the name
of its primary (indexing) dimension, the names of its variables (data
variables and coordinates), and its global attributes.  Row contents are
irrelevant to the claims about this function and are not carried. -/
structure XDataset where
  dim : String
  varNames : List String
  attrs : List (String × String)
deriving DecidableEq, Repr

/-- The ingestion-bookkeeping fields dropped by `process_file` (line 322):
the obs index, the internal id variable, and the timestamp-provenance
variables. -/
def bookkeepingFields : List String :=
  ["obs", "id", "driver_timestamp", "ingestion_timestamp", "port_timestamp",
   "preferred_timestamp"]

/-- `process_file` (lines 305-341) after the OPeNDAP download: swap the
primary dimension from obs to time (`swap_dims` raises unless the dataset is
obs-indexed and carries a time variable), drop the bookkeeping variables
(xarray's `drop` raises when one of the labels is absent), sort rows by time
(row order is below the granularity of this name-level model), and rewrite
the fixed set of global attributes.  Python exception paths are `none`. -/
def process_file (ds : XDataset) : Option XDataset :=
  if ds.dim = "obs" ∧ "time" ∈ ds.varNames then
    if ∀ v ∈ bookkeepingFields, v ∈ ds.varNames then
      let varNames := ds.varNames.filter (fun v => decide (v ∉ bookkeepingFields))
      let attrs := attrSet (attrSet ds.attrs "cdm_data_type" "Station") "featureType" "timeSeries"
      let attrs := ["DODS.strlen", "DODS.dimName", "DODS_EXTRA.Unlimited_Dimension",
        "_NCProperties", "feature_Type"].foldl attrDel attrs
      let attrs := attrSet attrs "acknowledgement" "National Science Foundation"
      let attrs := attrSet attrs "comment"
        "Data collected from the OOI M2M API and reworked for use in locally stored NetCDF files."
      let attrs := attrSet attrs "publisher_email" "ooice.platforms@gmail.com"
      let attrs := attrSet attrs "creator_email" "ooice.platforms@gmail.com"
      some ⟨"time", varNames, attrs⟩
    else none
  else none

/-! Definitions: QC flag re-encoding in `update_dataset` (lines 420-454). -/

/-- Match of the compiled pattern `^.+_qc_executed$` (line 424): at least
one character followed by the literal suffix `_qc_executed`. -/
def qc_executed_match (v : String) : Bool :=
  decide ("_qc_executed".data <:+ v.data) && decide ("_qc_executed".data.length < v.data.length)

/-- Match of the compiled pattern `^.+_qc_results$` (line 425). -/
def qc_results_match (v : String) : Bool :=
  decide ("_qc_results".data <:+ v.data) && decide ("_qc_results".data.length < v.data.length)

/-- The fixed flag-mask table `np.array([1, 2, 4, 8, 16, 32, 64, 128],
dtype=np.uint8)` of line 426, as the list of its unsigned values. -/
def flag_masks : List ℕ := [1, 2, 4, 8, 16, 32, 64, 128]

/-- The `flag_meanings` string attached to a `*_qc_executed` variable
(lines 434-435), with the Python string concatenation carried out. -/
def qc_executed_flag_meanings : String :=
  "global_range_test local_range_test spike_test poly_trend_test stuck_value_test gradient_test propogate_flags"

/-- The seven test names of `qc_executed_flag_meanings` in their fixed
order, used to state that the string is exactly their space-separated
join. -/
def qc_executed_meaning_tokens : List String :=
  ["global_range_test", "local_range_test", "spike_test", "poly_trend_test",
   "stuck_value_test", "gradient_test", "propogate_flags"]

/-- The `flag_meanings` string attached to a `*_qc_results` variable
(lines 445-447). -/
def qc_results_flag_meanings : String :=
  "global_range_test_passed local_range_test_passed spike_test_passed poly_trend_test_passed stuck_value_test_passed gradient_test_passed all_tests_passed"

/-- Remove every occurrence of the pattern `pat` from `s` — the effect of
Python's `re.sub(pat, '', s)` for a literal pattern: scan left to right,
deleting each leftmost non-overlapping match.  `fuel` bounds the scan;
`s.length` steps always suffice. -/
def removeAllAux (pat : List Char) : ℕ → List Char → List Char
  | 0, s => s
  | _ + 1, [] => []
  | fuel + 1, c :: rest =>
    if pat ≠ [] ∧ pat <+: (c :: rest) then removeAllAux pat fuel ((c :: rest).drop pat.length)
    else c :: removeAllAux pat fuel rest

/-- String form of `removeAllAux`: `re.sub(pat, '', s)` for literal `pat`. -/
def removeAll (pat s : String) : String :=
  ⟨removeAllAux pat.data s.data.length s.data⟩

/-- The variable-level attributes manipulated by the QC re-encoding loop of
`update_dataset` (lines 427-454); an attribute the variable does not carry
is `none`. -/
structure VarAttrs where
  flag_masks : Option (List ℕ) := none
  flag_meanings : Option String := none
  comment : Option String := none
  ancillary_variables : Option String := none
  standard_name : Option String := none
deriving DecidableEq, Repr

/-- The `*_qc_executed` / `*_qc_results` attribute assignment of
`update_dataset` (lines 432-454), for a variable name `v` that already
matched `^.+_qc_.+$`: `a` is the variable's current attribute set and
`ancStd` the `standard_name` attribute of the ancillary variable obtained by
stripping the QC suffix from `v` (or `none` when that variable declares no
standard name).  The two branches are applied in sequence as in the source;
their patterns are mutually exclusive. -/
def update_dataset_qc_attrs (v : String) (a : VarAttrs) (ancStd : Option String) : VarAttrs :=
  let a := if qc_executed_match v then
      { a with
        flag_masks := some flag_masks
        flag_meanings := some qc_executed_flag_meanings
        comment := some "Automated QC tests executed for the associated named variable."
        ancillary_variables := some (removeAll "_qc_executed" v)
        standard_name := match ancStd with
          | some sn => some (sn ++ " qc_tests_executed")
          | none => a.standard_name }
    else a
  let a := if qc_results_match v then
      { a with
        flag_masks := some flag_masks
        flag_meanings := some qc_results_flag_meanings
        comment := some "QC result flags are set to true (1) if the test passed. Otherwise, if the test failed or was not executed, the flag is set to false (0)."
        ancillary_variables := some (removeAll "_qc_results" v)
        standard_name := match ancStd with
          | some sn => some (sn ++ " qc_tests_results")
          | none => a.standard_name }
    else a
  a

/-! Definitions: latitude/longitude handling in `update_dataset`
(lines 362-378 and the merge at line 413). -/

/-- The slice of the dataset that the latitude/longitude handling of
`update_dataset` manipulates: each variable's name with its dimension list,
and the global attributes.  The input is the dataset as of line 362, i.e.
after the station dimension has been added, so a per-observation lat/lon
variable has dimensions (station, time). -/
structure UDataset where
  varDims : List (String × List String)
  attrs : List (String × String)
deriving DecidableEq, Repr

/-- Whether the dataset has a variable of the given name
(`'lat' in ds.variables`). -/
def UDataset.hasVar (ds : UDataset) (v : String) : Bool :=
  ds.varDims.any (fun nd => nd.1 == v)

/-- xarray's `Dataset.drop`: returns a new dataset without the named
variables; it does not mutate its receiver. -/
def UDataset.drop (ds : UDataset) (names : List String) : UDataset :=
  ⟨ds.varDims.filter (fun nd => decide (nd.1 ∉ names)), ds.attrs⟩

/-- The merge of the station-dimensioned geo coordinates built at
lines 374-378 (`lat`, `lon`, `z` over the singleton station axis, with the
`station` coordinate) into the dataset, line 413.  With xarray's default
merge compatibility a variable already present is kept (its per-observation
form broadcasts against the station-dimensioned newcomer of equal values);
an absent one is added with the station dimension. -/
def mergeGeo (ds : UDataset) : UDataset :=
  ⟨ds.varDims
      ++ (["lat", "lon", "z", "station"].filter (fun n => !(ds.hasVar n))).map
          (fun n => (n, ["station"])),
    ds.attrs⟩

/-- The latitude/longitude handling of `update_dataset` (lines 362-378,
413), faithful to the source including its bug: in the variable branch the
code evaluates `ds.drop(['lat', 'lon'])` but never assigns the result
(xarray's `drop` is not in place), so the per-observation variables survive
to the merge; in the attribute branch the code does delete both global
attributes with `del`. -/
def update_dataset_latlon (ds : UDataset) : UDataset :=
  if ds.hasVar "lat" then
    let _ := ds.drop ["lat", "lon"]
    mergeGeo ds
  else
    mergeGeo ⟨ds.varDims, ds.attrs.filter (fun kv => decide (kv.1 ≠ "lat" ∧ kv.1 ≠ "lon"))⟩

/-- A merged dataset carrying per-observation lat/lon variables, as reaches
line 362 when the upstream files record position per observation. -/
def latlonSample : UDataset :=
  ⟨[("station", ["station"]), ("time", ["time"]),
    ("lat", ["station", "time"]), ("lon", ["station", "time"]),
    ("sea_water_temperature", ["station", "time"])],
   [("subsite", "CE01ISSM")]⟩

/-! Definitions: time conversion `dt64_epoch` (lines 470-479).

The source is
```
epts = dt64.values.astype(float) / 10.0 ** 9
```
elementwise over datetime64[ns] values: convert the signed 64-bit nanosecond
count to a binary64 float, then divide by 10^9 (itself exactly representable
in binary64) with one correctly-rounded division.  The round trip of the
claim multiplies the result back by 10^9 with one correctly-rounded binary64
multiplication.  We model binary64 values as exact rationals and implement
round-to-nearest, ties-to-even on the 53-bit significand; every value
arising in the claims lies in [1, 2^63], far from both overflow and the
subnormal range, so exponent-range effects cannot occur and are not
modelled. -/

/-- Base-2 logarithm by fuel-bounded halving: for `0 < n < 2 ^ fuel` it
satisfies `2 ^ lg fuel n ≤ n < 2 ^ (lg fuel n + 1)`.  Structural recursion
on the fuel keeps concrete values kernel-computable. -/
def lg : ℕ → ℕ → ℕ
  | 0, _ => 0
  | fuel + 1, n => if n < 2 then 0 else lg fuel (n / 2) + 1

/-- Floor of a rational, written with explicit numerator/denominator
arithmetic so that concrete values kernel-evaluate. -/
def ratFloor (q : ℚ) : ℤ := q.num.fdiv (q.den : ℤ)

/-- Round a rational to the nearest integer, ties to even. -/
def rnEven (x : ℚ) : ℤ :=
  if x - ratFloor x < 1 / 2 then ratFloor x
  else if x - ratFloor x > 1 / 2 then ratFloor x + 1
  else if ratFloor x % 2 = 0 then ratFloor x else ratFloor x + 1

/-- Round a rational `q ≥ 1` to the nearest binary64 value: scale `q` into
the 53-bit significand range `[2^52, 2^53)` using its binary exponent,
round to the nearest integer (ties to even), and scale back. -/
def floatRoundPos (q : ℚ) : ℚ :=
  if 52 ≤ lg 128 (ratFloor q).toNat then
    ((rnEven (q / 2 ^ (lg 128 (ratFloor q).toNat - 52)) : ℤ) : ℚ)
      * 2 ^ (lg 128 (ratFloor q).toNat - 52)
  else
    ((rnEven (q * 2 ^ (52 - lg 128 (ratFloor q).toNat)) : ℤ) : ℚ)
      / 2 ^ (52 - lg 128 (ratFloor q).toNat)

/-- Round a rational to the nearest binary64 value (valid for `|q| ≥ 1`
or `q = 0`, which covers every value in the claims). -/
def floatRound (q : ℚ) : ℚ :=
  if q < 0 then -(floatRoundPos (-q)) else if q = 0 then 0 else floatRoundPos q

/-- Correctly rounded binary64 division. -/
def floatDiv (x y : ℚ) : ℚ := floatRound (x / y)

/-- Correctly rounded binary64 multiplication. -/
def floatMul (x y : ℚ) : ℚ := floatRound (x * y)

/-- `dt64_epoch` (lines 470-479) on one datetime64[ns] value `t`:
`astype(float)` rounds the 64-bit integer to binary64, then the division by
the exactly representable `10.0 ** 9` rounds once more. -/
def dt64_epoch (t : ℤ) : ℚ := floatDiv (floatRound (t : ℚ)) (10 ^ 9)

/-- The round trip of the claim: `dt64_epoch` followed by a binary64
multiplication by `10 ^ 9`. -/
def dt64_roundTrip (t : ℤ) : ℚ := floatMul (dt64_epoch t) (10 ^ 9)

/-! Helper lemmas. -/

/-- Running the loop over `d ≥ 1` consecutive failed checks advances the
check index by `d`, consumes `d` fuel, sets `elapsed`, and sleeps `3 * d`
seconds. -/
theorem pollLoop_skip (status : ℕ → Bool) :
    ∀ (d i fuel : ℕ) (es : Bool) (sl : ℕ),
      (∀ j, j < d → status (i + j) = false) → d ≤ fuel → 1 ≤ d →
      pollLoop status i fuel es sl = pollLoop status (i + d) (fuel - d) true (sl + 3 * d) := by
  intro d
  induction d with
  | zero => intro i fuel es sl _ _ h1; omega
  | succ d ih =>
    intro i fuel es sl hfail hfuel _
    obtain ⟨f, rfl⟩ : ∃ f, fuel = f + 1 := ⟨fuel - 1, by omega⟩
    have h0 : status i = false := by simpa using hfail 0 (by omega)
    rcases Nat.eq_zero_or_pos d with hd | hd
    · subst hd
      simp [pollLoop, h0]
    · have step : pollLoop status i (f + 1) es sl = pollLoop status (i + 1) f true (sl + 3) := by
        simp [pollLoop, h0]
      rw [step, ih (i + 1) f true (sl + 3) (fun j hj => by
        have := hfail (j + 1) (by omega)
        simpa [Nat.add_assoc, Nat.add_comm 1 j] using this) (by omega) hd]
      congr 1 <;> omega

/-- An infix of a list is an infix of that list extended on the right. -/
theorem isInfix_append_right {α : Type _} {l l₁ : List α} (l₂ : List α)
    (h : l <:+: l₁) : l <:+: l₁ ++ l₂ := by
  obtain ⟨u, v, huv⟩ := h
  exact ⟨u, v ++ l₂, by rw [← huv]; simp⟩

/-- An infix of a list is an infix of that list extended on the left. -/
theorem isInfix_append_left {α : Type _} {l l₂ : List α} (l₁ : List α)
    (h : l <:+: l₂) : l <:+: l₁ ++ l₂ := by
  obtain ⟨u, v, huv⟩ := h
  exact ⟨l₁ ++ u, v, by rw [← huv]; simp⟩

/-- A variable name cannot end in both `_qc_executed` and `_qc_results`. -/
theorem qc_executed_not_results (v : String) (h : qc_executed_match v = true) :
    qc_results_match v = false := by
  unfold qc_executed_match at h
  unfold qc_results_match
  rw [Bool.and_eq_true, decide_eq_true_iff, decide_eq_true_iff] at h
  rw [Bool.and_eq_false_iff]
  left
  rw [decide_eq_false_iff_not]
  intro hres
  rcases List.suffix_or_suffix_of_suffix hres h.1 with hc | hc
  · exact absurd hc (by decide)
  · exact absurd hc (by decide)

/-- Correctness of the fuel-bounded base-2 logarithm. -/
theorem lg_spec : ∀ fuel n : ℕ, 0 < n → n < 2 ^ fuel →
    2 ^ lg fuel n ≤ n ∧ n < 2 ^ (lg fuel n + 1) := by
  intro fuel
  induction fuel with
  | zero => intro n h0 h1; simp at h1; omega
  | succ f ih =>
    intro n h0 h1
    by_cases h2 : n < 2
    · rw [lg, if_pos h2]
      constructor <;> simp <;> omega
    · have hdiv : n / 2 < 2 ^ f := by
        have hn : n < 2 * 2 ^ f := by rw [← pow_succ']; exact h1
        exact Nat.div_lt_of_lt_mul hn
      have hrec := ih (n / 2) (by omega) hdiv
      rw [lg, if_neg h2]
      constructor
      · calc 2 ^ (lg f (n / 2) + 1) = 2 ^ lg f (n / 2) * 2 := pow_succ 2 _
          _ ≤ n / 2 * 2 := Nat.mul_le_mul_right 2 hrec.1
          _ ≤ n := by omega
      · rw [pow_succ]
        have h3 := hrec.2
        set A := 2 ^ (lg f (n / 2) + 1) with hA
        omega

/-- The explicit rational floor agrees with integer values. -/
theorem ratFloor_intCast (n : ℤ) : ratFloor ((n : ℤ) : ℚ) = n := by
  unfold ratFloor
  rw [Rat.num_intCast, Rat.den_intCast]
  exact Int.fdiv_one n

/-- The explicit rational floor agrees with natural values. -/
theorem ratFloor_natCast (n : ℕ) : ratFloor ((n : ℕ) : ℚ) = n := by
  have := ratFloor_intCast (n : ℤ)
  rwa [Int.cast_natCast] at this

/-- Rounding to the nearest integer leaves integers unchanged. -/
theorem rnEven_intCast (n : ℤ) : rnEven ((n : ℤ) : ℚ) = n := by
  unfold rnEven
  rw [ratFloor_intCast]
  norm_num

/-- Rounding to the nearest integer leaves natural values unchanged. -/
theorem rnEven_natCast (n : ℕ) : rnEven ((n : ℕ) : ℚ) = n := by
  have := rnEven_intCast (n : ℤ)
  rwa [Int.cast_natCast] at this

/-- Binary64 rounding is exact on every positive multiple of a power of two
whose odd part fits the 53-bit significand: for `0 < m < 2 ^ 53` and
`k ≤ 75`, the value `m * 2 ^ k` is representable and rounds to itself. -/
theorem floatRound_exact (m k : ℕ) (hm0 : 0 < m) (hm : m < 2 ^ 53) (hk : k ≤ 75) :
    floatRound ((m : ℚ) * 2 ^ k) = (m : ℚ) * 2 ^ k := by
  have hq : (m : ℚ) * 2 ^ k = ((m * 2 ^ k : ℕ) : ℚ) := by push_cast; ring
  set N := m * 2 ^ k with hN
  have hpow : 0 < 2 ^ k := by positivity
  have hN0 : 0 < N := Nat.mul_pos hm0 hpow
  have hNlt : N < 2 ^ 128 := by
    calc N < 2 ^ 53 * 2 ^ k := (Nat.mul_lt_mul_right hpow).mpr hm
      _ ≤ 2 ^ 53 * 2 ^ 75 := Nat.mul_le_mul (le_refl _) (Nat.pow_le_pow_right (by norm_num) hk)
      _ = 2 ^ 128 := by norm_num
  have hQpos : (0 : ℚ) < ((N : ℕ) : ℚ) := by exact_mod_cast hN0
  rw [hq]
  unfold floatRound
  rw [if_neg (not_lt.mpr hQpos.le), if_neg (ne_of_gt hQpos)]
  have hE : (ratFloor ((N : ℕ) : ℚ)).toNat = N := by
    rw [ratFloor_natCast, Int.toNat_natCast]
  obtain ⟨hlow, hhigh⟩ := lg_spec 128 N hN0 hNlt
  set e := lg 128 N with he
  have hek : e ≤ 52 + k := by
    by_contra hcon
    have h53 : N < 2 ^ (53 + k) := by
      calc N < 2 ^ 53 * 2 ^ k := (Nat.mul_lt_mul_right hpow).mpr hm
        _ = 2 ^ (53 + k) := (pow_add 2 53 k).symm
    have hle : (2 : ℕ) ^ (53 + k) ≤ 2 ^ e := Nat.pow_le_pow_right (by norm_num) (by omega)
    exact absurd (lt_of_le_of_lt (le_trans hle hlow) h53) (lt_irrefl _)
  unfold floatRoundPos
  rw [hE, ← he]
  by_cases hcase : 52 ≤ e
  · rw [if_pos hcase]
    have hNnat : N = m * 2 ^ (k - (e - 52)) * 2 ^ (e - 52) := by
      rw [hN, mul_assoc, ← pow_add]
      congr 2
      omega
    have hNQ : ((N : ℕ) : ℚ) = ((m * 2 ^ (k - (e - 52)) : ℕ) : ℚ) * 2 ^ (e - 52) := by
      rw [hNnat]
      push_cast
      ring
    have hsplit : ((N : ℕ) : ℚ) / 2 ^ (e - 52) = ((m * 2 ^ (k - (e - 52)) : ℕ) : ℚ) := by
      rw [hNQ, mul_div_assoc, div_self (by positivity : (2 : ℚ) ^ (e - 52) ≠ 0), mul_one]
    rw [hsplit, rnEven_natCast]
    calc (((m * 2 ^ (k - (e - 52)) : ℕ) : ℤ) : ℚ) * 2 ^ (e - 52)
        = ((m * 2 ^ (k - (e - 52)) : ℕ) : ℚ) * 2 ^ (e - 52) := by rw [Int.cast_natCast]
      _ = ((N : ℕ) : ℚ) := hNQ.symm
  · rw [if_neg hcase]
    have hNnat : m * 2 ^ (k + (52 - e)) = N * 2 ^ (52 - e) := by
      rw [hN, mul_assoc, ← pow_add]
    have hNQ : ((N : ℕ) : ℚ) * 2 ^ (52 - e) = ((m * 2 ^ (k + (52 - e)) : ℕ) : ℚ) := by
      rw [hNnat]
      push_cast
      ring
    rw [hNQ, rnEven_natCast]
    calc (((m * 2 ^ (k + (52 - e)) : ℕ) : ℤ) : ℚ) / 2 ^ (52 - e)
        = ((m * 2 ^ (k + (52 - e)) : ℕ) : ℚ) / 2 ^ (52 - e) := by rw [Int.cast_natCast]
      _ = ((N : ℕ) : ℚ) * 2 ^ (52 - e) / 2 ^ (52 - e) := by rw [hNQ]
      _ = ((N : ℕ) : ℚ) := by
          rw [mul_div_assoc, div_self (by positivity : (2 : ℚ) ^ (52 - e) ≠ 0), mul_one]

/-- Binary64 rounding commutes with negation (the rounding is sign
symmetric). -/
theorem floatRound_neg (q : ℚ) : floatRound (-q) = -floatRound q := by
  unfold floatRound
  rcases lt_trichotomy q 0 with h | h | h
  · have h1 : ¬ -q < 0 := by linarith
    have h2 : ¬ -q = 0 := by intro h0; exact absurd (neg_eq_zero.mp h0) (ne_of_lt h)
    rw [if_neg h1, if_neg h2, if_pos h, neg_neg]
  · subst h
    norm_num
  · have h1 : -q < 0 := by linarith
    rw [if_pos h1, if_neg (not_lt.mpr h.le), if_neg (ne_of_gt h), neg_neg]

/-- The round trip is exact for non-negative second counts up to
4611686018 (the largest `s` with `s * 5 ^ 9 < 2 ^ 53`). -/
theorem dt64_roundTrip_exact_nat (s : ℕ) (hs : s ≤ 4611686018) :
    dt64_roundTrip ((s : ℤ) * 10 ^ 9) = (((s : ℤ) * 10 ^ 9 : ℤ) : ℚ) := by
  rcases Nat.eq_zero_or_pos s with h0 | h0
  · subst h0
    simp [dt64_roundTrip, dt64_epoch, floatDiv, floatMul, floatRound]
  · have hm5 : s * 5 ^ 9 < 2 ^ 53 := by
      calc s * 5 ^ 9 ≤ 4611686018 * 5 ^ 9 := Nat.mul_le_mul_right _ hs
        _ < 2 ^ 53 := by norm_num
    have h1 : floatRound ((((s : ℤ) * 10 ^ 9 : ℤ)) : ℚ) = (((s : ℤ) * 10 ^ 9 : ℤ) : ℚ) := by
      have hcast : ((((s : ℤ) * 10 ^ 9 : ℤ)) : ℚ) = ((s * 5 ^ 9 : ℕ) : ℚ) * 2 ^ 9 := by
        push_cast
        ring_nf
      rw [hcast, floatRound_exact (s * 5 ^ 9) 9 (by positivity) hm5 (by norm_num), ← hcast]
    have h2 : floatRound ((s : ℚ)) = (s : ℚ) := by
      have hcast : ((s : ℕ) : ℚ) = ((s : ℕ) : ℚ) * 2 ^ 0 := by ring
      calc floatRound ((s : ℚ)) = floatRound (((s : ℕ) : ℚ) * 2 ^ 0) := by rw [← hcast]
        _ = ((s : ℕ) : ℚ) * 2 ^ 0 := floatRound_exact s 0 h0 (by omega) (by norm_num)
        _ = (s : ℚ) := by ring
    have hdivcast : ((((s : ℤ) * 10 ^ 9 : ℤ)) : ℚ) / 10 ^ 9 = (s : ℚ) := by
      rw [div_eq_iff (by positivity : ((10 : ℚ)) ^ 9 ≠ 0)]
      push_cast
      ring_nf
    unfold dt64_roundTrip dt64_epoch floatDiv floatMul
    rw [h1, hdivcast, h2]
    have hmulcast : (s : ℚ) * 10 ^ 9 = ((((s : ℤ) * 10 ^ 9 : ℤ)) : ℚ) := by push_cast; ring
    rw [hmulcast, h1]

/-- The round trip commutes with timestamp negation. -/
theorem dt64_roundTrip_neg (t : ℤ) : dt64_roundTrip (-t) = -dt64_roundTrip t := by
  unfold dt64_roundTrip dt64_epoch floatDiv floatMul
  rw [Int.cast_neg, floatRound_neg, neg_div, floatRound_neg, neg_mul, floatRound_neg]

/-! Claim theorems. -/

/-- C1: the dataset merged by `m2m_collect` from any non-empty list of
per-file datasets has a non-decreasing time coordinate, and is a permutation
of the concatenation of the input files — every observation row of every
input file is retained, duplicates included (no deduplication). -/
theorem C1_merged_time_sorted_all_rows_kept (frames : List (List Obs)) (ds : List Obs)
    (h : m2m_collect frames = some ds) :
    List.Chain' (· ≤ ·) (ds.map Obs.time) ∧ ds.Perm frames.flatten := by
  unfold m2m_collect at h
  split at h
  · exact absurd h (by simp)
  · have hds : ds = List.insertionSort obsLE frames.flatten := by
      simpa using h.symm
    subst hds
    constructor
    · rw [List.chain'_iff_pairwise, List.pairwise_map]
      exact List.sorted_insertionSort obsLE frames.flatten
    · exact List.perm_insertionSort obsLE frames.flatten

/-- C1 witness: two per-file datasets with the overlapping time ranges
0..5 and 3..8 merge into one dataset spanning 0..8, sorted ascending, with
all 12 original rows retained — the overlapping times 3, 4, 5 appear twice,
once from each file. -/
theorem C1_merged_time_sorted_all_rows_kept_witness :
    m2m_collect
        [[⟨0, 1⟩, ⟨1, 1⟩, ⟨2, 1⟩, ⟨3, 1⟩, ⟨4, 1⟩, ⟨5, 1⟩],
         [⟨3, 2⟩, ⟨4, 2⟩, ⟨5, 2⟩, ⟨6, 2⟩, ⟨7, 2⟩, ⟨8, 2⟩]] =
      some [⟨0, 1⟩, ⟨1, 1⟩, ⟨2, 1⟩, ⟨3, 1⟩, ⟨3, 2⟩, ⟨4, 1⟩, ⟨4, 2⟩,
            ⟨5, 1⟩, ⟨5, 2⟩, ⟨6, 2⟩, ⟨7, 2⟩, ⟨8, 2⟩]
      ∧ (List.Chain' (· ≤ ·)
          (([⟨0, 1⟩, ⟨1, 1⟩, ⟨2, 1⟩, ⟨3, 1⟩, ⟨3, 2⟩, ⟨4, 1⟩, ⟨4, 2⟩,
             ⟨5, 1⟩, ⟨5, 2⟩, ⟨6, 2⟩, ⟨7, 2⟩, ⟨8, 2⟩] : List Obs).map Obs.time)
        ∧ ([⟨0, 1⟩, ⟨1, 1⟩, ⟨2, 1⟩, ⟨3, 1⟩, ⟨3, 2⟩, ⟨4, 1⟩, ⟨4, 2⟩,
            ⟨5, 1⟩, ⟨5, 2⟩, ⟨6, 2⟩, ⟨7, 2⟩, ⟨8, 2⟩] : List Obs).Perm
          ([[⟨0, 1⟩, ⟨1, 1⟩, ⟨2, 1⟩, ⟨3, 1⟩, ⟨4, 1⟩, ⟨5, 1⟩],
            [⟨3, 2⟩, ⟨4, 2⟩, ⟨5, 2⟩, ⟨6, 2⟩, ⟨7, 2⟩, ⟨8, 2⟩]] : List (List Obs)).flatten) :=
  ⟨by decide,
   C1_merged_time_sorted_all_rows_kept
     [[⟨0, 1⟩, ⟨1, 1⟩, ⟨2, 1⟩, ⟨3, 1⟩, ⟨4, 1⟩, ⟨5, 1⟩],
      [⟨3, 2⟩, ⟨4, 2⟩, ⟨5, 2⟩, ⟨6, 2⟩, ⟨7, 2⟩, ⟨8, 2⟩]]
     [⟨0, 1⟩, ⟨1, 1⟩, ⟨2, 1⟩, ⟨3, 1⟩, ⟨3, 2⟩, ⟨4, 1⟩, ⟨4, 2⟩,
      ⟨5, 1⟩, ⟨5, 2⟩, ⟨6, 2⟩, ⟨7, 2⟩, ⟨8, 2⟩] (by decide)⟩

/-- C2: for every variable name matching `*_qc_executed`, the attributes
attached by `update_dataset` carry `flag_masks` equal to exactly
[1, 2, 4, 8, 16, 32, 64, 128] (all unsigned 8-bit values) and a
`flag_meanings` string that is exactly the space-separated join of the seven
test names global_range_test, local_range_test, spike_test, poly_trend_test,
stuck_value_test, gradient_test, propogate_flags, in that fixed order. -/
theorem C2_qc_executed_flag_attrs (v : String) (a : VarAttrs) (ancStd : Option String)
    (h : qc_executed_match v = true) :
    (update_dataset_qc_attrs v a ancStd).flag_masks = some [1, 2, 4, 8, 16, 32, 64, 128]
      ∧ (∀ m ∈ flag_masks, m < 256)
      ∧ (update_dataset_qc_attrs v a ancStd).flag_meanings = some qc_executed_flag_meanings
      ∧ qc_executed_flag_meanings = String.intercalate " " qc_executed_meaning_tokens
      ∧ qc_executed_meaning_tokens.length = 7
      ∧ (∀ t ∈ qc_executed_meaning_tokens, t ≠ "" ∧ ' ' ∉ t.data) := by
  have hres := qc_executed_not_results v h
  refine ⟨?_, by decide, ?_, by decide, by decide, by decide⟩ <;>
    simp [update_dataset_qc_attrs, h, hres, flag_masks]

/-- C2 witness: the attributes attached to the QC companion of a
temperature variable. -/
theorem C2_qc_executed_flag_attrs_witness :
    qc_executed_match "sea_water_temperature_qc_executed" = true
      ∧ ((update_dataset_qc_attrs "sea_water_temperature_qc_executed" {}
            (some "sea_water_temperature")).flag_masks = some [1, 2, 4, 8, 16, 32, 64, 128]
        ∧ (∀ m ∈ flag_masks, m < 256)
        ∧ (update_dataset_qc_attrs "sea_water_temperature_qc_executed" {}
            (some "sea_water_temperature")).flag_meanings = some qc_executed_flag_meanings
        ∧ qc_executed_flag_meanings = String.intercalate " " qc_executed_meaning_tokens
        ∧ qc_executed_meaning_tokens.length = 7
        ∧ (∀ t ∈ qc_executed_meaning_tokens, t ≠ "" ∧ ' ' ∉ t.data)) :=
  ⟨by decide,
   C2_qc_executed_flag_attrs "sea_water_temperature_qc_executed" {}
     (some "sea_water_temperature") (by decide)⟩

/-- C3: on a dataset with per-observation lat/lon variables,
`update_dataset` does not remove them — the result of `ds.drop` at line 366
is discarded, so the returned dataset still carries lat and lon with their
per-observation (station, time) dimensions, and differs from the dataset the
intended removal would have produced. -/
theorem C3_latlon_source_representation_not_removed :
    ("lat", ["station", "time"]) ∈ (update_dataset_latlon latlonSample).varDims
      ∧ ("lon", ["station", "time"]) ∈ (update_dataset_latlon latlonSample).varDims
      ∧ update_dataset_latlon latlonSample ≠ mergeGeo (latlonSample.drop ["lat", "lon"]) := by
  refine ⟨by decide, by decide, by decide⟩

/-- C4 counterexample: with a status endpoint that never answers success, the
polling loop of `m2m_request` exhausts all 200 checks (600 seconds of sleeps)
and the function nevertheless falls through to `return data`, handing the
caller the export job descriptor — it is not a terminal failure. -/
theorem C4_exhaustion_still_returns_descriptor_cex :
    m2m_request_poll (fun _ => false) = .ret 200 600 false
      ∧ (m2m_request_poll (fun _ => false)).returnsData = true := by
  constructor <;> decide

/-- C4 (amended): when every one of the 200 status checks fails,
`m2m_request` performs exactly 200 checks and 600 seconds of sleeps, never
reports completion, and still returns the export job descriptor `data`
normally; no error is raised and nothing distinguishes this from success in
the returned value. -/
theorem C4_exhaustion_returns_descriptor (status : ℕ → Bool)
    (h : ∀ i, i < 200 → status i = false) :
    m2m_request_poll status = .ret 200 600 false := by
  unfold m2m_request_poll
  rw [pollLoop_skip status 200 0 200 false 0 (fun j hj => by simpa using h j (by omega))
    (by omega) (by omega)]
  simp [pollLoop]

/-- C4 witness: the amended theorem applied to the never-succeeding endpoint. -/
theorem C4_exhaustion_returns_descriptor_witness :
    (∀ i, i < 200 → (fun _ => false : ℕ → Bool) i = false)
      ∧ m2m_request_poll (fun _ => false) = .ret 200 600 false :=
  ⟨fun _ _ => rfl, C4_exhaustion_returns_descriptor (fun _ => false) (fun _ _ => rfl)⟩

/-- C5: for a status endpoint whose first success is the k-th check with
`2 ≤ k ≤ 200`, the poller performs exactly `k` status checks, sleeps the fixed
3 seconds after each of the `k - 1` failed checks, and returns ready
(completion reported).  For `k = 1` the code instead raises `NameError` at
the completion report — the local `elapsed` is only assigned after a failed
check — so the claim's range had to exclude it; that failing case is
evaluated under claim C10. -/
theorem C5_first_success_kth_check (status : ℕ → Bool) (k : ℕ)
    (h2 : 2 ≤ k) (h200 : k ≤ 200)
    (hk : status (k - 1) = true) (hbefore : ∀ i, i < k - 1 → status i = false) :
    m2m_request_poll status = .ret k (3 * (k - 1)) true := by
  unfold m2m_request_poll
  rw [pollLoop_skip status (k - 1) 0 200 false 0 (fun j hj => by simpa using hbefore j (by omega))
    (by omega) (by omega)]
  obtain ⟨f, hf⟩ : ∃ f, 200 - (k - 1) = f + 1 := ⟨200 - (k - 1) - 1, by omega⟩
  rw [hf]
  have : (0 : ℕ) + (k - 1) = k - 1 := by omega
  rw [this]
  simp only [pollLoop, hk, if_true]
  congr 1 <;> omega

/-- C5 witness: first success on the 5th check gives exactly 5 checks,
4 sleeps of 3 seconds, and a ready report. -/
theorem C5_first_success_kth_check_witness :
    ((fun i => decide (4 ≤ i)) (5 - 1) = true)
      ∧ (∀ i, i < 5 - 1 → (fun i => decide (4 ≤ i)) i = false)
      ∧ m2m_request_poll (fun i => decide (4 ≤ i)) = .ret 5 (3 * (5 - 1)) true := by
  refine ⟨by decide, ?_, ?_⟩
  · intro i hi
    simp only [decide_eq_false_iff_not]
    omega
  · exact C5_first_success_kth_check (fun i => decide (4 ≤ i)) 5 (by norm_num) (by norm_num)
      (by decide) (fun i hi => by simp only [decide_eq_false_iff_not]; omega)

/-- C6: with no start and no stop, the query string contains `beginDT=0` and
no `endDT` parameter at all; a supplied (non-empty, per Python truthiness)
start or stop appears as the value of `beginDT` or `endDT`. -/
theorem C6_begin_end_dt_defaults :
    ("beginDT=0".data <:+: (m2m_request_options none none).data)
      ∧ (¬ ("endDT".data <:+: (m2m_request_options none none).data))
      ∧ (∀ s stop, s ≠ "" →
          ("beginDT=" ++ s).data <:+: (m2m_request_options (some s) stop).data)
      ∧ (∀ start t, t ≠ "" →
          ("endDT=" ++ t).data <:+: (m2m_request_options start (some t)).data) := by
  refine ⟨by decide, by decide, ?_, ?_⟩
  · intro s stop hs
    have hbase : ("beginDT=" ++ s).data <:+: ("?beginDT=" ++ s).data := by
      refine ⟨"?".data, [], ?_⟩
      have h9 : ("?beginDT=" : String) = "?" ++ "beginDT=" := by decide
      simp [h9, String.data_append]
    simp only [m2m_request_options, if_neg hs]
    rw [String.data_append, String.data_append]
    exact isInfix_append_right _ (isInfix_append_right _ hbase)
  · intro start t ht
    have hbase : ("endDT=" ++ t).data <:+: ("&endDT=" ++ t).data := by
      refine ⟨"&".data, [], ?_⟩
      have h9 : ("&endDT=" : String) = "&" ++ "endDT=" := by decide
      simp [h9, String.data_append]
    simp only [m2m_request_options, if_neg ht]
    rw [String.data_append, String.data_append]
    exact isInfix_append_right _ (isInfix_append_left _ hbase)

/-- C6 witness: concrete supplied start and stop timestamps appear as the
beginDT and endDT values. -/
theorem C6_begin_end_dt_defaults_witness :
    ("beginDT=" ++ "2021-01-01T00:00:00.000Z").data <:+:
        (m2m_request_options (some "2021-01-01T00:00:00.000Z")
          (some "2021-02-01T00:00:00.000Z")).data
      ∧ ("endDT=" ++ "2021-02-01T00:00:00.000Z").data <:+:
        (m2m_request_options (some "2021-01-01T00:00:00.000Z")
          (some "2021-02-01T00:00:00.000Z")).data :=
  ⟨C6_begin_end_dt_defaults.2.2.1 "2021-01-01T00:00:00.000Z"
      (some "2021-02-01T00:00:00.000Z") (by decide),
   C6_begin_end_dt_defaults.2.2.2 (some "2021-01-01T00:00:00.000Z")
      "2021-02-01T00:00:00.000Z" (by decide)⟩

/-- C7: `list_files` returns exactly the href references of the anchors
whose link text matches the caller-supplied tag, in page order: the empty tag
keeps every link; the output is always a sublist (order-preserving selection)
of the page's hrefs; an href is returned precisely when some matching anchor
carries it; and the page with links data_20200101.nc, data_20200101.nc.md5,
readme.txt filtered with the tag `\.nc$` yields exactly data_20200101.nc. -/
theorem C7_list_files_filters_by_tag :
    (∀ page, list_files page emptyTagSearch = page.map Anchor.href)
      ∧ (∀ page search, (list_files page search).Sublist (page.map Anchor.href))
      ∧ (∀ page search f, f ∈ list_files page search
          ↔ ∃ a ∈ page, search a.text = true ∧ a.href = f)
      ∧ list_files
          [⟨"data_20200101.nc", "data_20200101.nc"⟩,
           ⟨"data_20200101.nc.md5", "data_20200101.nc.md5"⟩,
           ⟨"readme.txt", "readme.txt"⟩] ncTagSearch = ["data_20200101.nc"] := by
  refine ⟨?_, ?_, ?_, by decide⟩
  · intro page
    simp [list_files, emptyTagSearch]
  · intro page search
    exact (List.filter_sublist page).map Anchor.href
  · intro page search f
    simp only [list_files, List.mem_map, List.mem_filter]
    constructor
    · rintro ⟨a, ⟨ha, hs⟩, rfl⟩
      exact ⟨a, ha, hs, rfl⟩
    · rintro ⟨a, ha, hs, rfl⟩
      exact ⟨a, ⟨ha, hs⟩, rfl⟩

/-- C8: whenever `process_file` returns a dataset, that dataset contains none
of the ingestion-bookkeeping fields — obs, id, driver_timestamp,
ingestion_timestamp, port_timestamp, preferred_timestamp are all absent —
and its primary dimension is time. -/
theorem C8_process_file_strips_bookkeeping (ds out : XDataset)
    (h : process_file ds = some out) :
    (∀ v ∈ bookkeepingFields, v ∉ out.varNames) ∧ out.dim = "time" := by
  unfold process_file at h
  split at h
  · split at h
    · obtain ⟨rfl⟩ : (⟨"time", ds.varNames.filter (fun v => decide (v ∉ bookkeepingFields)),
          _⟩ : XDataset) = out := by simpa using h
      refine ⟨?_, rfl⟩
      intro v hv hmem
      rcases List.mem_filter.mp hmem with ⟨-, hdec⟩
      exact (of_decide_eq_true hdec) hv
    · exact absurd h (by simp)
  · exact absurd h (by simp)

/-- C8 witness: a representative telemetered file with the six bookkeeping
variables, a time coordinate and one science variable normalizes to a
time-dimensioned dataset free of all six. -/
theorem C8_process_file_strips_bookkeeping_witness :
    process_file
        ⟨"obs",
         ["obs", "id", "driver_timestamp", "ingestion_timestamp", "port_timestamp",
          "preferred_timestamp", "time", "sea_water_temperature"],
         [("subsite", "CE01ISSM")]⟩ =
      some ⟨"time", ["time", "sea_water_temperature"],
        [("subsite", "CE01ISSM"), ("cdm_data_type", "Station"), ("featureType", "timeSeries"),
         ("acknowledgement", "National Science Foundation"),
         ("comment",
          "Data collected from the OOI M2M API and reworked for use in locally stored NetCDF files."),
         ("publisher_email", "ooice.platforms@gmail.com"),
         ("creator_email", "ooice.platforms@gmail.com")]⟩
      ∧ ((∀ v ∈ bookkeepingFields,
            v ∉ ["time", "sea_water_temperature"]) ∧ ("time" : String) = "time") :=
  ⟨by decide,
   C8_process_file_strips_bookkeeping
     ⟨"obs",
      ["obs", "id", "driver_timestamp", "ingestion_timestamp", "port_timestamp",
       "preferred_timestamp", "time", "sea_water_temperature"],
      [("subsite", "CE01ISSM")]⟩
     ⟨"time", ["time", "sea_water_temperature"],
      [("subsite", "CE01ISSM"), ("cdm_data_type", "Station"), ("featureType", "timeSeries"),
       ("acknowledgement", "National Science Foundation"),
       ("comment",
        "Data collected from the OOI M2M API and reworked for use in locally stored NetCDF files."),
       ("publisher_email", "ooice.platforms@gmail.com"),
       ("creator_email", "ooice.platforms@gmail.com")]⟩
     (by decide)⟩

/-- C9 (amended): for every integer second count `s` with
`|s| ≤ 4611686018`, converting the aligned nanosecond timestamp
`T = s * 10 ^ 9` with `dt64_epoch` and multiplying back by `10 ^ 9`
reproduces `T` exactly; beyond that bound (still reachable within the
datetime64[ns] range, from about year 2116 on) exactness fails, see the
counterexample. -/
theorem C9_dt64_epoch_roundtrip_bounded (s : ℤ) (hs : s.natAbs ≤ 4611686018) :
    dt64_roundTrip (s * 10 ^ 9) = ((s * 10 ^ 9 : ℤ) : ℚ) := by
  rcases Int.natAbs_eq s with h | h
  · rw [h]
    exact dt64_roundTrip_exact_nat s.natAbs (by omega)
  · rw [h]
    have : (-(s.natAbs : ℤ)) * 10 ^ 9 = -((s.natAbs : ℤ) * 10 ^ 9) := by ring
    rw [this, dt64_roundTrip_neg, dt64_roundTrip_exact_nat s.natAbs (by omega)]
    push_cast
    ring

section

attribute [local semireducible] Rat.mul Rat.add Rat.sub Rat.inv

/-- C9 counterexample: the integer-second-aligned nanosecond timestamp
4611686019 * 10 ^ 9 lies within the signed 64-bit datetime64[ns] range, yet
the round trip does not reproduce it: its odd part 4611686019 * 5 ^ 9
exceeds the 53-bit binary64 significand, so `astype(float)` already rounds
the value, and the final product differs from the original timestamp. -/
theorem C9_dt64_epoch_roundtrip_cex :
    (4611686019 * 10 ^ 9 : ℤ) < 2 ^ 63
      ∧ dt64_roundTrip (4611686019 * 10 ^ 9) ≠ ((4611686019 * 10 ^ 9 : ℤ) : ℚ) := by
  constructor
  · decide
  · decide

end

/-- C9 witness: the epoch second count 1700000000 (mid-November 2023)
round-trips exactly. -/
theorem C9_dt64_epoch_roundtrip_bounded_witness :
    ((1700000000 : ℤ).natAbs ≤ 4611686018)
      ∧ dt64_roundTrip (1700000000 * 10 ^ 9) = ((1700000000 * 10 ^ 9 : ℤ) : ℚ) :=
  ⟨by norm_num, C9_dt64_epoch_roundtrip_bounded 1700000000 (by norm_num)⟩

/-- C10: if the very first status check succeeds, the polling loop reaches
the completion `print` with the local `elapsed` never assigned: the code
raises `NameError` after exactly 1 check and 0 seconds of sleep instead of
returning the export job descriptor, contradicting the intended behavior. -/
theorem C10_success_on_first_check_name_error :
    m2m_request_poll (fun _ => true) = .nameError 1 0
      ∧ (m2m_request_poll (fun _ => true)).returnsData = false := by
  constructor <;> decide

end OOI
